import Mathlib

/-!
Verification of the vacancy aggregate service of the `conexao-inclusao-jaragua/api`
repository (`src/service/vacancy_service.go`), over a shallow embedding of the
service code.  The per-entity repositories, the `utils` error helpers and the
request/response model types are not part of the provided sources; where their
behaviour decides a property they are modelled from the specification, and each
such definition says so in its doc comment.
-/

/-! ## Error model -/

/-- Modelled from the spec: `utils.NewErrorCode` builds a structured error code
carrying a category (uniformly "database" here), an entity tag ("vacancy") and a
short numeric code distinguishing the call site. -/
structure ErrorCode where
  category : String
  entity : String
  code : String
  deriving DecidableEq, Repr

/-- Modelled from the spec: `utils.Error` is a structured error value with a
message and a structured code; an empty code means "no error". -/
structure Err where
  message : String
  code : ErrorCode
  deriving DecidableEq, Repr

/-- Modelled from the spec: `utils.NewErrorCode`. -/
def NewErrorCode (category entity code : String) : ErrorCode :=
  { category := category, entity := entity, code := code }

/-- Modelled from the spec: `utils.DatabaseErrorCode`, the uniform category. -/
def DatabaseErrorCode : String := "database"

/-- Modelled from the spec: `utils.VacancyErrorType`, the entity tag. -/
def VacancyErrorType : String := "vacancy"

/-- Function `vacancyServiceError` from `vacancy_service.go` (lines 45-49): wraps a
message and a call-site code into the uniform database/vacancy error shape. -/
def vacancyServiceError (message code : String) : Err :=
  { message := message, code := NewErrorCode DatabaseErrorCode VacancyErrorType code }

/-! ## Storage model

The repositories wrap one relational table each.  Tables are lists of rows;
row shapes follow §3 of the spec (only the fields the service touches are
modelled, plus the scalar fields named by the spec for Vacancy). -/

structure VacancyRow where
  id : Nat
  companyId : Nat
  area : String
  contractType : String
  title : String
  deriving DecidableEq, Repr

structure SkillRow where
  name : String
  vacancyId : Nat
  deriving DecidableEq, Repr

structure RequirementRow where
  name : String
  vacancyId : Nat
  deriving DecidableEq, Repr

structure ResponsabilityRow where
  name : String
  vacancyId : Nat
  deriving DecidableEq, Repr

/-- Model `model.VacancyDisability`: join row (vacancy reference, disability reference). -/
structure VacancyDisabilityRow where
  vacancyId : Nat
  disabilityId : Nat
  deriving DecidableEq, Repr

/-- A row of the Disability table: identity plus a `Category` string. -/
structure DisabilityRow where
  id : Nat
  category : String
  deriving DecidableEq, Repr

/-- The database state seen by the vacancy service: one list per table, plus
the auto-increment counter for vacancy identifiers. -/
structure St where
  vacancies : List VacancyRow
  skills : List SkillRow
  requirements : List RequirementRow
  responsabilities : List ResponsabilityRow
  vacancyDisabilities : List VacancyDisabilityRow
  disabilities : List DisabilityRow
  nextVacancyId : Nat
  deriving DecidableEq, Repr

/-! ## Request and response shapes -/

/-- Model `model.VacancyRequest`: scalar vacancy fields plus the child collections.
Disability tags are disability identifiers (the Go code stores
`DisabilityId: int(disability)`). -/
structure VacancyRequest where
  companyId : Nat
  area : String
  contractType : String
  title : String
  skills : List String
  requirements : List String
  responsabilities : List String
  disabilities : List Nat
  deriving DecidableEq, Repr

/-- Conversion `VacancyRequest.ToModel`: the storage record before the upsert assigns an id. -/
def VacancyRequest.toModel (r : VacancyRequest) (id : Nat) : VacancyRow :=
  { id := id, companyId := r.companyId, area := r.area,
    contractType := r.contractType, title := r.title }

/-- Model `model.VacancySimpleResponse`: the list-endpoint summary shape. -/
structure VacancySimpleResponse where
  id : Nat
  area : String
  disabilities : List String
  deriving DecidableEq, Repr

/-- Conversion `Vacancy.ToSimpleResponse(uniqueDisabilities)`. -/
def VacancyRow.toSimpleResponse (v : VacancyRow) (uniqueDisabilities : List String) :
    VacancySimpleResponse :=
  { id := v.id, area := v.area, disabilities := uniqueDisabilities }

/-- Model `model.VacancyResponse`: the full single-vacancy shape with all children. -/
structure VacancyResponse where
  id : Nat
  area : String
  disabilities : List String
  skills : List SkillRow
  responsabilities : List ResponsabilityRow
  requirements : List RequirementRow
  deriving DecidableEq, Repr

/-- Conversion `Vacancy.ToResponse(disabilities, skills, responsabilities, requirements)`. -/
def VacancyRow.toResponse (v : VacancyRow) (disabilities : List String)
    (skills : List SkillRow) (responsabilities : List ResponsabilityRow)
    (requirements : List RequirementRow) : VacancyResponse :=
  { id := v.id, area := v.area, disabilities := disabilities,
    skills := skills, responsabilities := responsabilities,
    requirements := requirements }

/-! ## The deduplication loop

`ListVacancies` builds `uniqueDisabilities` by iterating over the join rows,
skipping a category already contained in the accumulator and appending it
otherwise (lines 128-134).  `addUnique` is one iteration of that loop. -/

/-- One step of the `uniqueDisabilities` loop: skip `c` if already present,
else append it. -/
def addUnique [DecidableEq α] (acc : List α) (c : α) : List α :=
  if c ∈ acc then acc else acc ++ [c]

/-- The whole loop of lines 128-134, over the sequence of category strings. -/
def dedupCategories (cs : List String) : List String :=
  cs.foldl addUnique []

/-- Recursive characterisation of first-seen deduplication: keep the head,
erase its later occurrences. -/
def firstSeen [DecidableEq α] : List α → List α
  | [] => []
  | c :: cs => c :: (firstSeen cs).filter (fun x => x ≠ c)

theorem foldl_addUnique_eq [DecidableEq α] (cs : List α) : ∀ acc : List α,
    cs.foldl addUnique acc = acc ++ (firstSeen cs).filter (fun x => x ∉ acc) := by
  induction cs with
  | nil => intro acc; simp [firstSeen]
  | cons c cs ih =>
    intro acc
    rw [List.foldl_cons]
    by_cases hc : c ∈ acc
    · rw [addUnique, if_pos hc, ih acc, firstSeen]
      congr 1
      rw [List.filter_cons]
      have hcd : (decide (c ∉ acc)) = false := by simp [hc]
      rw [hcd]
      simp only [List.filter_filter]
      apply List.filter_congr
      intro x _
      by_cases hxc : x = c
      · subst hxc; simp [hc]
      · simp [hxc]
    · rw [addUnique, if_neg hc, ih (acc ++ [c]), firstSeen]
      rw [List.filter_cons]
      have hcd : (decide (c ∉ acc)) = true := by simp [hc]
      rw [hcd]
      simp only [List.cons_append, List.append_assoc, List.singleton_append]
      congr 1
      simp only [List.filter_filter, if_true, List.nil_append, List.cons.injEq, true_and]
      apply List.filter_congr
      intro x _
      by_cases hxc : x = c
      · subst hxc; simp
      · simp [hxc]

theorem dedupCategories_eq_firstSeen (cs : List String) :
    dedupCategories cs = firstSeen cs := by
  rw [dedupCategories, foldl_addUnique_eq]
  simp

theorem mem_firstSeen [DecidableEq α] (l : List α) (a : α) :
    a ∈ firstSeen l ↔ a ∈ l := by
  induction l with
  | nil => simp [firstSeen]
  | cons c cs ih =>
    simp only [firstSeen, List.mem_cons, List.mem_filter]
    constructor
    · rintro (rfl | ⟨h1, _⟩)
      · exact Or.inl rfl
      · exact Or.inr (ih.mp h1)
    · rintro (rfl | h)
      · exact Or.inl rfl
      · by_cases hac : a = c
        · exact Or.inl hac
        · exact Or.inr ⟨ih.mpr h, by simp [hac]⟩

theorem pairwise_indexOf_firstSeen [DecidableEq α] (l : List α) :
    (firstSeen l).Pairwise (fun a b => l.indexOf a < l.indexOf b) := by
  induction l with
  | nil => simp [firstSeen]
  | cons c cs ih =>
    rw [firstSeen]
    refine List.Pairwise.cons ?_ ?_
    · intro b hb
      rw [List.mem_filter] at hb
      have hbne : b ≠ c := by
        have := hb.2; simpa using this
      have hbcs : b ∈ cs := (mem_firstSeen cs b).mp hb.1
      rw [List.indexOf_cons_self, List.indexOf_cons_ne _ hbne.symm]
      exact Nat.succ_pos _
    · refine List.Pairwise.imp_of_mem ?_ (List.Pairwise.filter _ ih)
      intro a b ha hb hab
      rw [List.mem_filter] at ha hb
      have hane : a ≠ c := by have := ha.2; simpa using this
      have hbne : b ≠ c := by have := hb.2; simpa using this
      rw [List.indexOf_cons_ne _ hane.symm, List.indexOf_cons_ne _ hbne.symm]
      exact Nat.succ_lt_succ hab

theorem nodup_firstSeen [DecidableEq α] (l : List α) : (firstSeen l).Nodup :=
  (pairwise_indexOf_firstSeen l).imp (fun h => by
    intro heq; subst heq; exact Nat.lt_irrefl _ h)

theorem count_firstSeen [DecidableEq α] (l : List α) (a : α) (ha : a ∈ l) :
    (firstSeen l).count a = 1 :=
  List.count_eq_one_of_mem (nodup_firstSeen l) ((mem_firstSeen l a).mpr ha)

/-! ## Read repositories

The repository implementations are not part of the provided sources; each
definition below is modelled from the specification's description of the
storage layer. -/

/-- Modelled from the spec: the Disability lookup the ORM performs when loading
a join row's `Disability` association (empty category if the id is unknown). -/
def lookupCategory (s : St) (did : Nat) : String :=
  ((s.disabilities.find? (fun d => d.id == did)).map (fun d => d.category)).getD ""

/-- A `VacancyDisability` join row with its `Disability` association loaded. -/
structure JoinWithDisability where
  vacancyId : Nat
  disabilityId : Nat
  category : String
  deriving DecidableEq, Repr

/-- Modelled from the spec: `vacancyDisabilitiesRepo.GetVacancyDisabilities`
returns the join rows of the given vacancy in storage order, each with its
`Disability` loaded. -/
def getVacancyDisabilities (s : St) (vid : Nat) : List JoinWithDisability :=
  (s.vacancyDisabilities.filter (fun r => r.vacancyId == vid)).map
    (fun r => { vacancyId := r.vacancyId, disabilityId := r.disabilityId,
                category := lookupCategory s r.disabilityId })

/-- Modelled from the spec: `vacancyRepo.GetVacancyById` reads one row by id. -/
def findVacancyById (s : St) (id : Nat) : Option VacancyRow :=
  s.vacancies.find? (fun v => v.id == id)

/-- Modelled from the spec: `skillsRepo.ListSkillsByVacancyId`. -/
def listSkillsByVacancyId (s : St) (vid : Nat) : List SkillRow :=
  s.skills.filter (fun r => r.vacancyId == vid)

/-- Modelled from the spec: `requirementsRepo.ListRequirementsByVacancyId`. -/
def listRequirementsByVacancyId (s : St) (vid : Nat) : List RequirementRow :=
  s.requirements.filter (fun r => r.vacancyId == vid)

/-- Modelled from the spec: `responsabilitiesRepo.ListResponsabilitiesByVacancyId`. -/
def listResponsabilitiesByVacancyId (s : St) (vid : Nat) : List ResponsabilityRow :=
  s.responsabilities.filter (fun r => r.vacancyId == vid)

/-- A failure oracle: `fail i = true` means the i-th repository call of the
operation (numbered in program order) fails with a storage error. -/
abbrev FailOracle := Nat → Bool

/-- The oracle under which every repository call succeeds. -/
def noFail : FailOracle := fun _ => false

/-! ## GetVacancyById (lines 146-183) -/

/-- Operation `GetVacancyById`: five repository reads in program order (vacancy, skills,
requirements, responsabilities, disabilities), each with its own error code;
the vacancy read also fails when no row with the requested id exists.  The
disabilities of the response are collected by the append loop of lines
172-175, one entry per join row, without deduplication. -/
def getVacancyById (fail : FailOracle) (s : St) (id : Nat) :
    Except Err VacancyResponse :=
  if fail 0 then .error (vacancyServiceError "failed to get the vacancy" "03")
  else
    match findVacancyById s id with
    | none => .error (vacancyServiceError "failed to get the vacancy" "03")
    | some vacancy =>
      if fail 1 then .error (vacancyServiceError "failed to get the skills" "04")
      else if fail 2 then .error (vacancyServiceError "failed to get the requirements" "05")
      else if fail 3 then .error (vacancyServiceError "failed to get the responsabilities" "06")
      else if fail 4 then .error (vacancyServiceError "failed to get the disabilities" "07")
      else
        let skills := listSkillsByVacancyId s id
        let requirements := listRequirementsByVacancyId s id
        let responsabilities := listResponsabilitiesByVacancyId s id
        let disabilities := (getVacancyDisabilities s id).foldl
          (fun acc vd => acc ++ [vd.category]) []
        .ok (vacancy.toResponse disabilities skills responsabilities requirements)

/-! ## ListVacancies (lines 112-144) -/

/-- Modelled from the spec: `vacancyRepo.ListVacancies` applies the primary
filters and pagination in storage.  The `disabilityCategory` filter is NOT
applied here (per the spec it is a service-layer post-filter) and free-text
search is left out of the model. -/
def repoListVacancies (s : St) (page perPage companyId : Nat)
    (area contractType : String) : List VacancyRow :=
  ((s.vacancies.filter (fun v =>
      (companyId == 0 || v.companyId == companyId) &&
      (area == "" || v.area == area) &&
      (contractType == "" || v.contractType == contractType))).drop
    ((page - 1) * perPage)).take perPage

/-- The `uniqueDisabilities` list the loop of lines 128-134 computes for one
vacancy: the first-seen deduplication of its join rows' categories. -/
def uniqueDisabilitiesOf (s : St) (vid : Nat) : List String :=
  (getVacancyDisabilities s vid).foldl (fun acc vd => addUnique acc vd.category) []

/-- The per-vacancy loop of `ListVacancies` (lines 120-141): fetch the join
rows (call number `idx`), deduplicate their categories first-seen, skip the
vacancy when a non-empty `disabilityCategory` is not among them, otherwise
append its summary response. -/
def listLoop (fail : FailOracle) (s : St) (disabilityCategory : String) :
    Nat → List VacancyRow → Except Err (List VacancySimpleResponse)
  | _, [] => .ok []
  | idx, vacancy :: rest =>
    if fail idx then
      .error (vacancyServiceError "failed to get the disabilities" "03")
    else
      let uniqueDisabilities := uniqueDisabilitiesOf s vacancy.id
      if disabilityCategory ≠ "" ∧ disabilityCategory ∉ uniqueDisabilities then
        listLoop fail s disabilityCategory (idx + 1) rest
      else
        (listLoop fail s disabilityCategory (idx + 1) rest).map
          (fun tail => vacancy.toSimpleResponse uniqueDisabilities :: tail)

/-- Operation `ListVacancies`: the storage page (call 0, error code "02"), then the
per-vacancy disability fetches (error code "03"). -/
def listVacancies (fail : FailOracle) (s : St) (page perPage companyId : Nat)
    (disabilityCategory area contractType searchText : String) :
    Except Err (List VacancySimpleResponse) :=
  if fail 0 then .error (vacancyServiceError "failed to list the vacancies" "02")
  else listLoop fail s disabilityCategory 1
    (repoListVacancies s page perPage companyId area contractType)

/-! ## CreateVacancy (lines 51-110) -/

/-- Modelled from the spec: `vacancyRepo.UpsertVacancy` on the create path
inserts a new record keyed by the next identifier and advances the counter;
the service receives that identifier. -/
def upsertVacancy (row : VacancyRow) (s : St) : St :=
  { s with vacancies := s.vacancies ++ [row], nextVacancyId := s.nextVacancyId + 1 }

/-- Modelled from the spec: `skillsRepo.CreateSkill` appends one row. -/
def insertSkill (vid : Nat) (name : String) (s : St) : St :=
  { s with skills := s.skills ++ [{ name := name, vacancyId := vid }] }

/-- Modelled from the spec: `requirementsRepo.CreateRequirement` appends one row. -/
def insertRequirement (vid : Nat) (name : String) (s : St) : St :=
  { s with requirements := s.requirements ++ [{ name := name, vacancyId := vid }] }

/-- Modelled from the spec: `responsabilitiesRepo.CreateResponsability` appends one row. -/
def insertResponsability (vid : Nat) (name : String) (s : St) : St :=
  { s with responsabilities := s.responsabilities ++ [{ name := name, vacancyId := vid }] }

/-- The list-level effect of an idempotent join upsert: append the
(vacancy, disability) pair unless it is already present. -/
def upsertJoinList (vid : Nat) (t : List VacancyDisabilityRow) (d : Nat) :
    List VacancyDisabilityRow :=
  if t.any (fun r => r.vacancyId == vid && r.disabilityId == d) then t
  else t ++ [{ vacancyId := vid, disabilityId := d }]

/-- Modelled from the spec: `vacancyDisabilitiesRepo.UpsertVacancyDisability`
creates the join row idempotently. -/
def upsertVacancyDisability (vid d : Nat) (s : St) : St :=
  { s with vacancyDisabilities := upsertJoinList vid s.vacancyDisabilities d }

/-- Run one child-insert loop of `CreateVacancy`: insert each item in order,
numbering the repository calls from `i`, and abort at the first failing call. -/
def insertAll (fail : FailOracle) (ins : α → St → St) :
    Nat → List α → St → Except Unit (St × Nat)
  | i, [], s => .ok (s, i)
  | i, x :: xs, s =>
    if fail i then .error () else insertAll fail ins (i + 1) xs (ins x s)

/-- The transaction body of `CreateVacancy` (lines 54-103): upsert the vacancy
to obtain its identifier (call 0), then insert every skill, requirement and
responsability row and upsert every disability join row, each a repository
call numbered in program order, aborting at the first failure. -/
def createBody (fail : FailOracle) (req : VacancyRequest) (s : St) :
    Except Unit St :=
  if fail 0 then .error ()
  else
    let vacancyId := s.nextVacancyId
    let s0 := upsertVacancy (req.toModel vacancyId) s
    (insertAll fail (fun t => insertSkill vacancyId t) 1 req.skills s0).bind fun p1 =>
    (insertAll fail (fun t => insertRequirement vacancyId t) p1.2 req.requirements p1.1).bind fun p2 =>
    (insertAll fail (fun t => insertResponsability vacancyId t) p2.2 req.responsabilities p2.1).bind fun p3 =>
    (insertAll fail (fun d => upsertVacancyDisability vacancyId d) p3.2 req.disabilities p3.1).map fun p4 =>
    p4.1

/-- Modelled from the spec: `BeginTransaction` commits the body's effects, or
rolls every effect back (returning the initial state) when the body errors;
the second component tells the service whether the transaction failed. -/
def beginTransaction (body : St → Except Unit St) (s : St) : St × Bool :=
  match body s with
  | .ok s' => (s', false)
  | .error _ => (s, true)

/-- Operation `CreateVacancy` (lines 51-110): run the aggregate insert inside one
transaction; any failure surfaces the generic creation error, code "01". -/
def createVacancy (fail : FailOracle) (req : VacancyRequest) (s : St) :
    St × Option Err :=
  match beginTransaction (createBody fail req) s with
  | (s', true) => (s', some (vacancyServiceError "failed to create the vacancy" "01"))
  | (s', false) => (s', none)

/-! ## UpdateVacancy and DeleteVacancy (lines 185-219) -/

/-- The transaction body shared by `UpdateVacancy` (lines 188-195) and
`DeleteVacancy` (lines 205-212): a single read of the vacancy by id and no
write at all (in `UpdateVacancy` the request conversion is commented out). -/
def existsBody (fail : FailOracle) (id : Nat) (s : St) : Except Unit St :=
  if fail 0 then .error ()
  else
    match findVacancyById s id with
    | none => .error ()
    | some _ => .ok s

/-- Operation `UpdateVacancy` (lines 185-202): the request argument is accepted but its
fields are never read; the transaction only checks existence. -/
def updateVacancy (fail : FailOracle) (vacancy : VacancyRequest) (id : Nat)
    (s : St) : St × Option Err :=
  match beginTransaction (existsBody fail id) s with
  | (s', true) => (s', some (vacancyServiceError "failed to update the vacancy" "08"))
  | (s', false) => (s', none)

/-- Operation `DeleteVacancy` (lines 204-219): only checks existence. -/
def deleteVacancy (fail : FailOracle) (id : Nat) (s : St) : St × Option Err :=
  match beginTransaction (existsBody fail id) s with
  | (s', true) => (s', some (vacancyServiceError "failed to delete the vacancy" "09"))
  | (s', false) => (s', none)

/-! ## Helper lemmas -/

theorem foldl_append_eq_map (l : List α) (f : α → β) : ∀ acc : List β,
    l.foldl (fun a x => a ++ [f x]) acc = acc ++ l.map f := by
  induction l with
  | nil => intro acc; simp
  | cons x xs ih => intro acc; simp [ih]

theorem uniqueDisabilitiesOf_eq_dedup (s : St) (vid : Nat) :
    uniqueDisabilitiesOf s vid =
      dedupCategories ((getVacancyDisabilities s vid).map (fun vd => vd.category)) := by
  rw [uniqueDisabilitiesOf, dedupCategories, List.foldl_map]

theorem listLoop_ok_mem (fail : FailOracle) (s : St) (dc : String) :
    ∀ (idx : Nat) (vs : List VacancyRow) (res : List VacancySimpleResponse),
    listLoop fail s dc idx vs = .ok res →
    ∀ r ∈ res, r.disabilities = uniqueDisabilitiesOf s r.id ∧ (dc ≠ "" → dc ∈ r.disabilities) := by
  intro idx vs
  induction vs generalizing idx with
  | nil =>
    intro res h r hr
    simp only [listLoop] at h
    cases h
    simp at hr
  | cons v rest ih =>
    intro res h r hr
    simp only [listLoop] at h
    by_cases hf : fail idx
    · simp [hf] at h
    · rw [if_neg hf] at h
      by_cases hskip : dc ≠ "" ∧ dc ∉ uniqueDisabilitiesOf s v.id
      · rw [if_pos hskip] at h
        exact ih (idx + 1) res h r hr
      · rw [if_neg hskip] at h
        cases htail : listLoop fail s dc (idx + 1) rest with
        | error e => rw [htail] at h; cases h
        | ok tail =>
          rw [htail] at h
          cases h
          rcases List.mem_cons.mp hr with hr1 | hr2
          · subst hr1
            refine ⟨rfl, fun hdc => ?_⟩
            push_neg at hskip
            simpa [VacancyRow.toSimpleResponse] using hskip hdc
          · exact ih (idx + 1) tail htail r hr2

theorem listLoop_ok_sublist (fail : FailOracle) (s : St) (dc : String) :
    ∀ (idx : Nat) (vs : List VacancyRow) (res : List VacancySimpleResponse),
    listLoop fail s dc idx vs = .ok res →
    List.Sublist res (vs.map (fun v => v.toSimpleResponse (uniqueDisabilitiesOf s v.id))) := by
  intro idx vs
  induction vs generalizing idx with
  | nil =>
    intro res h
    simp only [listLoop] at h
    cases h
    simp
  | cons v rest ih =>
    intro res h
    simp only [listLoop] at h
    by_cases hf : fail idx
    · simp [hf] at h
    · rw [if_neg hf] at h
      by_cases hskip : dc ≠ "" ∧ dc ∉ uniqueDisabilitiesOf s v.id
      · rw [if_pos hskip] at h
        exact List.Sublist.cons _ (ih (idx + 1) res h)
      · rw [if_neg hskip] at h
        cases htail : listLoop fail s dc (idx + 1) rest with
        | error e => rw [htail] at h; cases h
        | ok tail =>
          rw [htail] at h
          cases h
          exact List.Sublist.cons₂ _ (ih (idx + 1) tail htail)

theorem listLoop_error_shape (fail : FailOracle) (s : St) (dc : String) :
    ∀ (idx : Nat) (vs : List VacancyRow) (e : Err),
    listLoop fail s dc idx vs = .error e →
    e = vacancyServiceError "failed to get the disabilities" "03" := by
  intro idx vs
  induction vs generalizing idx with
  | nil => intro e h; simp only [listLoop] at h; cases h
  | cons v rest ih =>
    intro e h
    simp only [listLoop] at h
    by_cases hf : fail idx
    · rw [if_pos hf] at h
      cases h
      rfl
    · rw [if_neg hf] at h
      by_cases hskip : dc ≠ "" ∧ dc ∉ uniqueDisabilitiesOf s v.id
      · rw [if_pos hskip] at h
        exact ih (idx + 1) e h
      · rw [if_neg hskip] at h
        cases htail : listLoop fail s dc (idx + 1) rest with
        | error e2 =>
          rw [htail] at h
          cases h
          exact ih (idx + 1) e htail
        | ok tail => rw [htail] at h; cases h

/-! ## CreateVacancy: effect characterisation -/

/-- The skill rows a successful create inserts for the new vacancy id. -/
def newSkillRows (req : VacancyRequest) (vid : Nat) : List SkillRow :=
  req.skills.map (fun t => { name := t, vacancyId := vid })

/-- The requirement rows a successful create inserts. -/
def newRequirementRows (req : VacancyRequest) (vid : Nat) : List RequirementRow :=
  req.requirements.map (fun t => { name := t, vacancyId := vid })

/-- The responsability rows a successful create inserts. -/
def newResponsabilityRows (req : VacancyRequest) (vid : Nat) : List ResponsabilityRow :=
  req.responsabilities.map (fun t => { name := t, vacancyId := vid })

/-- The join rows a successful create inserts into a table with no prior row
for the new vacancy: one per distinct disability tag, in first-seen order. -/
def newJoinRows (req : VacancyRequest) (vid : Nat) : List VacancyDisabilityRow :=
  (firstSeen req.disabilities).map (fun d => { vacancyId := vid, disabilityId := d })

/-- The state a successful `CreateVacancy` commits. -/
def createdState (req : VacancyRequest) (s : St) : St :=
  { s with
    vacancies := s.vacancies ++ [req.toModel s.nextVacancyId],
    nextVacancyId := s.nextVacancyId + 1,
    skills := s.skills ++ newSkillRows req s.nextVacancyId,
    requirements := s.requirements ++ newRequirementRows req s.nextVacancyId,
    responsabilities := s.responsabilities ++ newResponsabilityRows req s.nextVacancyId,
    vacancyDisabilities :=
      req.disabilities.foldl (upsertJoinList s.nextVacancyId) s.vacancyDisabilities }

/-- The number of repository calls `CreateVacancy` issues when none fails:
the vacancy upsert plus one call per child item (repeated tags included). -/
def totalCalls (req : VacancyRequest) : Nat :=
  1 + req.skills.length + req.requirements.length + req.responsabilities.length +
    req.disabilities.length

theorem insertAll_ok (fail : FailOracle) (ins : α → St → St) :
    ∀ (xs : List α) (i : Nat) (s s' : St) (i' : Nat),
    insertAll fail ins i xs s = .ok (s', i') →
    s' = xs.foldl (fun t x => ins x t) s ∧ i' = i + xs.length ∧
      ∀ j, i ≤ j → j < i' → fail j = false := by
  intro xs
  induction xs with
  | nil =>
    intro i s s' i' h
    simp only [insertAll] at h
    cases h
    refine ⟨rfl, by simp, ?_⟩
    intro j h1 h2
    exact absurd h2 (by omega)
  | cons x xs ih =>
    intro i s s' i' h
    simp only [insertAll] at h
    by_cases hf : fail i
    · rw [if_pos hf] at h; cases h
    · rw [if_neg hf] at h
      obtain ⟨h1, h2, h3⟩ := ih (i + 1) (ins x s) s' i' h
      refine ⟨by rw [List.foldl_cons]; exact h1, by simp only [List.length_cons]; omega, ?_⟩
      intro j hj1 hj2
      rcases Nat.eq_or_lt_of_le hj1 with rfl | hlt
      · simpa using hf
      · exact h3 j hlt hj2

theorem foldl_insertSkill (vid : Nat) (xs : List String) : ∀ s : St,
    xs.foldl (fun t x => insertSkill vid x t) s =
      { s with skills := s.skills ++ xs.map (fun x => { name := x, vacancyId := vid }) } := by
  induction xs with
  | nil => intro s; simp
  | cons x xs ih => intro s; rw [List.foldl_cons, ih]; simp [insertSkill]

theorem foldl_insertRequirement (vid : Nat) (xs : List String) : ∀ s : St,
    xs.foldl (fun t x => insertRequirement vid x t) s =
      { s with requirements :=
          s.requirements ++ xs.map (fun x => { name := x, vacancyId := vid }) } := by
  induction xs with
  | nil => intro s; simp
  | cons x xs ih => intro s; rw [List.foldl_cons, ih]; simp [insertRequirement]

theorem foldl_insertResponsability (vid : Nat) (xs : List String) : ∀ s : St,
    xs.foldl (fun t x => insertResponsability vid x t) s =
      { s with responsabilities :=
          s.responsabilities ++ xs.map (fun x => { name := x, vacancyId := vid }) } := by
  induction xs with
  | nil => intro s; simp
  | cons x xs ih => intro s; rw [List.foldl_cons, ih]; simp [insertResponsability]

theorem foldl_upsertVacancyDisability (vid : Nat) (ds : List Nat) : ∀ s : St,
    ds.foldl (fun t d => upsertVacancyDisability vid d t) s =
      { s with vacancyDisabilities :=
          ds.foldl (upsertJoinList vid) s.vacancyDisabilities } := by
  induction ds with
  | nil => intro s; simp
  | cons d ds ih => intro s; rw [List.foldl_cons, ih]; simp [upsertVacancyDisability]

theorem upsertJoinList_foldl (vid : Nat) : ∀ (ds : List Nat)
    (t0 : List VacancyDisabilityRow) (acc : List Nat),
    (∀ r ∈ t0, r.vacancyId ≠ vid) →
    ds.foldl (upsertJoinList vid)
        (t0 ++ acc.map (fun d => { vacancyId := vid, disabilityId := d })) =
      t0 ++ (ds.foldl addUnique acc).map
        (fun d => { vacancyId := vid, disabilityId := d }) := by
  intro ds
  induction ds with
  | nil => intro t0 acc h; simp
  | cons d ds ih =>
    intro t0 acc h
    rw [List.foldl_cons, List.foldl_cons]
    by_cases hd : d ∈ acc
    · have hany : ((t0 ++ acc.map (fun d => ({ vacancyId := vid, disabilityId := d } :
          VacancyDisabilityRow))).any
            (fun r => r.vacancyId == vid && r.disabilityId == d)) = true := by
        refine List.any_eq_true.mpr ⟨{ vacancyId := vid, disabilityId := d }, ?_, by simp⟩
        exact List.mem_append_right _ (List.mem_map_of_mem _ hd)
      rw [upsertJoinList, if_pos hany, addUnique, if_pos hd]
      exact ih t0 acc h
    · have hany : ((t0 ++ acc.map (fun d => ({ vacancyId := vid, disabilityId := d } :
          VacancyDisabilityRow))).any
            (fun r => r.vacancyId == vid && r.disabilityId == d)) = false := by
        refine List.any_eq_false.mpr ?_
        intro r hr
        rcases List.mem_append.mp hr with hr0 | hrm
        · simp [h r hr0]
        · obtain ⟨a, ha, rfl⟩ := List.mem_map.mp hrm
          have hne : a ≠ d := fun heq => hd (heq ▸ ha)
          simp [hne]
      rw [upsertJoinList, if_neg (by simp [hany]), addUnique, if_neg hd]
      have : (t0 ++ acc.map (fun d => ({ vacancyId := vid, disabilityId := d } :
          VacancyDisabilityRow))) ++ [{ vacancyId := vid, disabilityId := d }] =
          t0 ++ (acc ++ [d]).map (fun d => ({ vacancyId := vid, disabilityId := d } :
          VacancyDisabilityRow)) := by
        simp
      rw [this]
      exact ih t0 (acc ++ [d]) h

theorem except_bind_ok {x : Except ε α} {f : α → Except ε β} {b : β}
    (h : x.bind f = .ok b) : ∃ a, x = .ok a ∧ f a = .ok b := by
  cases x with
  | error e => simp [Except.bind] at h
  | ok a => exact ⟨a, rfl, h⟩

theorem except_map_ok {x : Except ε α} {f : α → β} {b : β}
    (h : Except.map f x = .ok b) : ∃ a, x = .ok a ∧ f a = b := by
  cases x with
  | error e => simp [Except.map] at h
  | ok a => exact ⟨a, rfl, by simpa [Except.map] using h⟩

theorem createBody_ok (fail : FailOracle) (req : VacancyRequest) (s s' : St)
    (h : createBody fail req s = .ok s') :
    s' = createdState req s ∧ ∀ j, j < totalCalls req → fail j = false := by
  rw [createBody] at h
  by_cases h0 : fail 0
  · rw [if_pos h0] at h; cases h
  · rw [if_neg h0] at h
    obtain ⟨⟨s1, i1⟩, hA, h⟩ := except_bind_ok h
    obtain ⟨⟨s2, i2⟩, hB, h⟩ := except_bind_ok h
    obtain ⟨⟨s3, i3⟩, hC, h⟩ := except_bind_ok h
    obtain ⟨⟨s4, i4⟩, hD, h⟩ := except_map_ok h
    subst h
    obtain ⟨hs1, hi1, hf1⟩ := insertAll_ok fail _ _ _ _ _ _ hA
    obtain ⟨hs2, hi2, hf2⟩ := insertAll_ok fail _ _ _ _ _ _ hB
    obtain ⟨hs3, hi3, hf3⟩ := insertAll_ok fail _ _ _ _ _ _ hC
    obtain ⟨hs4, hi4, hf4⟩ := insertAll_ok fail _ _ _ _ _ _ hD
    constructor
    · subst hs1 hs2 hs3
      show s4 = createdState req s
      rw [hs4, foldl_upsertVacancyDisability, foldl_insertResponsability,
        foldl_insertRequirement, foldl_insertSkill]
      rw [createdState, upsertVacancy]
      rfl
    · intro j hj
      rw [totalCalls] at hj
      by_cases hj0 : j = 0
      · subst hj0; simpa using h0
      · by_cases hja : j < i1
        · exact hf1 j (by omega) hja
        · by_cases hjb : j < i2
          · exact hf2 j (by omega) hjb
          · by_cases hjc : j < i3
            · exact hf3 j (by omega) hjc
            · exact hf4 j (by omega) (by omega)

theorem foldl_addUnique_nil [DecidableEq α] (ds : List α) :
    ds.foldl addUnique [] = firstSeen ds := by
  rw [foldl_addUnique_eq]
  simp

/-! ## Claim theorems -/

/-- C1: a successful `CreateVacancy` on a request with N skills, M
requirements, K responsibilities and D distinct disability tags appends
exactly N skill rows, M requirement rows, K responsability rows and D join
rows (one per distinct tag, none for repeats), every inserted row carrying the
identifier the vacancy upsert returned (`s.nextVacancyId`). -/
theorem createVacancy_child_rows (fail : FailOracle) (req : VacancyRequest) (s : St)
    (hok : (createVacancy fail req s).2 = none)
    (hfresh : ∀ r ∈ s.vacancyDisabilities, r.vacancyId ≠ s.nextVacancyId) :
    (createVacancy fail req s).1.vacancies =
      s.vacancies ++ [req.toModel s.nextVacancyId] ∧
    (createVacancy fail req s).1.skills =
      s.skills ++ newSkillRows req s.nextVacancyId ∧
    (newSkillRows req s.nextVacancyId).length = req.skills.length ∧
    (∀ r ∈ newSkillRows req s.nextVacancyId, r.vacancyId = s.nextVacancyId) ∧
    (createVacancy fail req s).1.requirements =
      s.requirements ++ newRequirementRows req s.nextVacancyId ∧
    (newRequirementRows req s.nextVacancyId).length = req.requirements.length ∧
    (∀ r ∈ newRequirementRows req s.nextVacancyId, r.vacancyId = s.nextVacancyId) ∧
    (createVacancy fail req s).1.responsabilities =
      s.responsabilities ++ newResponsabilityRows req s.nextVacancyId ∧
    (newResponsabilityRows req s.nextVacancyId).length = req.responsabilities.length ∧
    (∀ r ∈ newResponsabilityRows req s.nextVacancyId, r.vacancyId = s.nextVacancyId) ∧
    (createVacancy fail req s).1.vacancyDisabilities =
      s.vacancyDisabilities ++ newJoinRows req s.nextVacancyId ∧
    (newJoinRows req s.nextVacancyId).length = (firstSeen req.disabilities).length ∧
    (firstSeen req.disabilities).Nodup ∧
    (∀ d, d ∈ firstSeen req.disabilities ↔ d ∈ req.disabilities) ∧
    (∀ r ∈ newJoinRows req s.nextVacancyId, r.vacancyId = s.nextVacancyId) := by
  cases hc : createBody fail req s with
  | error e => simp [createVacancy, beginTransaction, hc] at hok
  | ok s' =>
    have h1 : (createVacancy fail req s).1 = s' := by
      simp [createVacancy, beginTransaction, hc]
    obtain ⟨hst, _⟩ := createBody_ok fail req s s' hc
    rw [h1, hst]
    have hjoin : req.disabilities.foldl (upsertJoinList s.nextVacancyId)
        s.vacancyDisabilities =
        s.vacancyDisabilities ++ newJoinRows req s.nextVacancyId := by
      have hgen := upsertJoinList_foldl s.nextVacancyId req.disabilities
        s.vacancyDisabilities [] hfresh
      simp only [List.map_nil, List.append_nil] at hgen
      rw [hgen, foldl_addUnique_nil, newJoinRows]
    refine ⟨rfl, rfl, by simp [newSkillRows], ?_, rfl, by simp [newRequirementRows], ?_,
      rfl, by simp [newResponsabilityRows], ?_, ?_, by simp [newJoinRows],
      nodup_firstSeen _, fun d => mem_firstSeen _ d, ?_⟩
    · intro r hr
      rw [newSkillRows] at hr
      obtain ⟨t, _, rfl⟩ := List.mem_map.mp hr
      rfl
    · intro r hr
      rw [newRequirementRows] at hr
      obtain ⟨t, _, rfl⟩ := List.mem_map.mp hr
      rfl
    · intro r hr
      rw [newResponsabilityRows] at hr
      obtain ⟨t, _, rfl⟩ := List.mem_map.mp hr
      rfl
    · show (createdState req s).vacancyDisabilities = _
      rw [createdState]
      exact hjoin
    · intro r hr
      rw [newJoinRows] at hr
      obtain ⟨d, _, rfl⟩ := List.mem_map.mp hr
      rfl

/-- Concrete input for the C1 witness: two skills, one requirement, one
responsability, three disability tags of which two are distinct. -/
def reqC1 : VacancyRequest :=
  { companyId := 7, area := "a", contractType := "clt", title := "t",
    skills := ["s1", "s2"], requirements := ["r1"], responsabilities := ["p1"],
    disabilities := [1, 2, 1] }

/-- Concrete state for the C1 witness. -/
def stC1 : St :=
  { vacancies := [], skills := [], requirements := [], responsabilities := [],
    vacancyDisabilities := [],
    disabilities := [{ id := 1, category := "Visual" }, { id := 2, category := "Hearing" }],
    nextVacancyId := 5 }

theorem createVacancy_child_rows_witness :
    (createVacancy noFail reqC1 stC1).1.skills =
      stC1.skills ++ newSkillRows reqC1 stC1.nextVacancyId ∧
    (createVacancy noFail reqC1 stC1).1.vacancyDisabilities =
      stC1.vacancyDisabilities ++ newJoinRows reqC1 stC1.nextVacancyId :=
  ⟨(createVacancy_child_rows noFail reqC1 stC1 rfl (by decide)).2.1,
   (createVacancy_child_rows noFail reqC1 stC1 rfl
      (by decide)).2.2.2.2.2.2.2.2.2.2.1⟩

/-- C2: if any repository call reached by `CreateVacancy` fails, the whole
transaction rolls back — the state afterwards is exactly the initial one, so
neither the parent row nor any skill, requirement, responsability or join row
persists — and the operation returns the single generic creation error. -/
theorem createVacancy_rolls_back (fail : FailOracle) (req : VacancyRequest) (s : St)
    (hfail : ∃ i, i < totalCalls req ∧ fail i = true) :
    createVacancy fail req s =
      (s, some (vacancyServiceError "failed to create the vacancy" "01")) := by
  obtain ⟨i, hi, hfi⟩ := hfail
  cases hc : createBody fail req s with
  | ok s' =>
    obtain ⟨_, hff⟩ := createBody_ok fail req s s' hc
    rw [hff i hi] at hfi
    cases hfi
  | error e => simp [createVacancy, beginTransaction, hc]

/-- Concrete input for the C2 witness. -/
def reqC2 : VacancyRequest :=
  { companyId := 7, area := "a", contractType := "clt", title := "t",
    skills := ["s1", "s2"], requirements := [], responsabilities := [],
    disabilities := [1] }

/-- Concrete state for the C2 witness (a non-empty table, to see it survive). -/
def stC2 : St :=
  { vacancies := [{ id := 1, companyId := 9, area := "b", contractType := "pj", title := "u" }],
    skills := [{ name := "k", vacancyId := 1 }], requirements := [], responsabilities := [],
    vacancyDisabilities := [],
    disabilities := [{ id := 1, category := "Visual" }],
    nextVacancyId := 2 }

theorem createVacancy_rolls_back_witness :
    createVacancy (fun i => i == 2) reqC2 stC2 =
      (stC2, some (vacancyServiceError "failed to create the vacancy" "01")) :=
  createVacancy_rolls_back (fun i => i == 2) reqC2 stC2 ⟨2, by decide, rfl⟩

/-- C3: the `uniqueDisabilities` loop of `ListVacancies` produces, for any
input sequence of (possibly repeated) category strings, a list containing each
distinct category exactly once, in first-seen order (indices of first
occurrence strictly increase along the result), with categories compared by
case-sensitive string equality. -/
theorem dedupCategories_first_seen (cs : List String) :
    (∀ c, c ∈ dedupCategories cs ↔ c ∈ cs) ∧
    (∀ c, c ∈ cs → (dedupCategories cs).count c = 1) ∧
    (dedupCategories cs).Pairwise (fun a b => cs.indexOf a < cs.indexOf b) := by
  rw [dedupCategories_eq_firstSeen]
  exact ⟨mem_firstSeen cs, fun c hc => count_firstSeen cs c hc,
    pairwise_indexOf_firstSeen cs⟩

theorem dedupCategories_first_seen_witness :
    ("a" ∈ dedupCategories ["a", "B", "a"] ↔ "a" ∈ (["a", "B", "a"] : List String)) ∧
    (dedupCategories ["a", "B", "a"]).count "a" = 1 ∧
    (dedupCategories ["a", "B", "a"]).Pairwise
      (fun x y => (["a", "B", "a"] : List String).indexOf x <
        (["a", "B", "a"] : List String).indexOf y) :=
  ⟨(dedupCategories_first_seen ["a", "B", "a"]).1 "a",
   (dedupCategories_first_seen ["a", "B", "a"]).2.1 "a" (by decide),
   (dedupCategories_first_seen ["a", "B", "a"]).2.2⟩

/-- C4: with a non-empty `disabilityCategory`, every vacancy a successful
`ListVacancies` returns carries that category in its deduplicated
disability-category list (which is exactly the `disabilities` field of the
summary response). -/
theorem listVacancies_filter_sound (fail : FailOracle) (s : St)
    (page perPage companyId : Nat) (dc area ct stx : String)
    (res : List VacancySimpleResponse) (hdc : dc ≠ "")
    (hres : listVacancies fail s page perPage companyId dc area ct stx = .ok res) :
    ∀ r ∈ res, dc ∈ r.disabilities ∧ r.disabilities = uniqueDisabilitiesOf s r.id := by
  intro r hr
  rw [listVacancies] at hres
  by_cases h0 : fail 0
  · rw [if_pos h0] at hres; cases hres
  · rw [if_neg h0] at hres
    obtain ⟨hd, hm⟩ := listLoop_ok_mem fail s dc 1 _ res hres r hr
    exact ⟨hm hdc, hd⟩

/-- Concrete state for the C4 witness. -/
def stC4 : St :=
  { vacancies := [{ id := 1, companyId := 7, area := "x", contractType := "clt", title := "t" }],
    skills := [], requirements := [], responsabilities := [],
    vacancyDisabilities := [{ vacancyId := 1, disabilityId := 1 }],
    disabilities := [{ id := 1, category := "Visual" }],
    nextVacancyId := 2 }

theorem listVacancies_filter_sound_witness :
    "Visual" ∈ ({ id := 1, area := "x", disabilities := ["Visual"] } :
      VacancySimpleResponse).disabilities ∧
    ({ id := 1, area := "x", disabilities := ["Visual"] } :
      VacancySimpleResponse).disabilities =
      uniqueDisabilitiesOf stC4 ({ id := 1, area := "x", disabilities := ["Visual"] } :
        VacancySimpleResponse).id :=
  listVacancies_filter_sound noFail stC4 1 10 0 "Visual" "" "" ""
    [{ id := 1, area := "x", disabilities := ["Visual"] }] (by decide) rfl
    { id := 1, area := "x", disabilities := ["Visual"] } (by decide)

/-- Concrete state for C5: vacancy 1 (page 1) has no disability tag, vacancy 2
(page 2 at one item per page) is tagged Visual. -/
def stC5 : St :=
  { vacancies :=
      [{ id := 1, companyId := 7, area := "x", contractType := "clt", title := "t" },
       { id := 2, companyId := 7, area := "y", contractType := "clt", title := "t" }],
    skills := [], requirements := [], responsabilities := [],
    vacancyDisabilities := [{ vacancyId := 2, disabilityId := 1 }],
    disabilities := [{ id := 1, category := "Visual" }],
    nextVacancyId := 3 }

/-- C5: the `disabilityCategory` filter is applied in the service after the
storage layer has paginated: every successful result is an order-preserving
subsequence of the repository page, and concretely (state `stC5`, one item per
page, filter "Visual") page 1 yields fewer than `perPage` items even though a
matching vacancy exists on page 2. -/
theorem listVacancies_post_filter :
    (∀ (fail : FailOracle) (s : St) (page perPage companyId : Nat)
      (dc area ct stx : String) (res : List VacancySimpleResponse),
      listVacancies fail s page perPage companyId dc area ct stx = .ok res →
      List.Sublist res
        ((repoListVacancies s page perPage companyId area ct).map
          (fun v => v.toSimpleResponse (uniqueDisabilitiesOf s v.id)))) ∧
    listVacancies noFail stC5 1 1 0 "Visual" "" "" "" = .ok [] ∧
    ([] : List VacancySimpleResponse).length < 1 ∧
    listVacancies noFail stC5 2 1 0 "Visual" "" "" "" =
      .ok [{ id := 2, area := "y", disabilities := ["Visual"] }] := by
  refine ⟨?_, rfl, by decide, rfl⟩
  intro fail s page perPage companyId dc area ct stx res hres
  rw [listVacancies] at hres
  by_cases h0 : fail 0
  · rw [if_pos h0] at hres; cases hres
  · rw [if_neg h0] at hres
    exact listLoop_ok_sublist fail s dc 1 _ res hres

theorem listVacancies_post_filter_witness :
    List.Sublist ([] : List VacancySimpleResponse)
      ((repoListVacancies stC5 1 1 0 "" "").map
        (fun v => v.toSimpleResponse (uniqueDisabilitiesOf stC5 v.id))) :=
  listVacancies_post_filter.1 noFail stC5 1 1 0 "Visual" "" "" "" [] rfl

/-- The Disability table for the C6 example: tag 1 is "Visual", tag 2 is
"Hearing"; the request's tags [1, 2, 1] read ["Visual", "Hearing", "Visual"]. -/
def stC6 : St :=
  { vacancies := [], skills := [], requirements := [], responsabilities := [],
    vacancyDisabilities := [],
    disabilities := [{ id := 1, category := "Visual" }, { id := 2, category := "Hearing" }],
    nextVacancyId := 1 }

/-- The C6 request: disability tags ["Visual", "Hearing", "Visual"]. -/
def reqC6 : VacancyRequest :=
  { companyId := 7, area := "a", contractType := "clt", title := "t",
    skills := [], requirements := [], responsabilities := [], disabilities := [1, 2, 1] }

/-- C6: creating a vacancy with disability tags ["Visual", "Hearing", "Visual"]
stores join rows for the two distinct tags only (the repeated tag is upserted
idempotently), their categories deduplicate to ["Visual", "Hearing"], and
`GetVacancyById` on the new vacancy returns disabilities
["Visual", "Hearing"]. -/
theorem create_then_get_dedups_example :
    (createVacancy noFail reqC6 stC6).2 = none ∧
    (createVacancy noFail reqC6 stC6).1.vacancyDisabilities =
      [{ vacancyId := 1, disabilityId := 1 }, { vacancyId := 1, disabilityId := 2 }] ∧
    dedupCategories
        (((createVacancy noFail reqC6 stC6).1.vacancyDisabilities).map
          (fun r => lookupCategory stC6 r.disabilityId)) = ["Visual", "Hearing"] ∧
    getVacancyById noFail (createVacancy noFail reqC6 stC6).1 1 =
      .ok { id := 1, area := "a", disabilities := ["Visual", "Hearing"],
            skills := [], responsabilities := [], requirements := [] } :=
  ⟨rfl, rfl, rfl, rfl⟩

/-- C7: `UpdateVacancy` and `DeleteVacancy` only verify that the vacancy
exists: the state they return is exactly the input state (no row created,
modified or deleted), and the result of `UpdateVacancy` does not depend on any
field of the request argument. -/
theorem update_delete_only_check_existence (fail : FailOracle)
    (req1 req2 : VacancyRequest) (id : Nat) (s : St) :
    (updateVacancy fail req1 id s).1 = s ∧
    (deleteVacancy fail id s).1 = s ∧
    updateVacancy fail req1 id s = updateVacancy fail req2 id s := by
  have hex : ∀ (f : FailOracle) (i : Nat) (st s2 : St),
      existsBody f i st = .ok s2 → s2 = st := by
    intro f i st s2 h
    rw [existsBody] at h
    by_cases h0 : f 0
    · rw [if_pos h0] at h; cases h
    · rw [if_neg h0] at h
      cases hf : findVacancyById st i with
      | none => rw [hf] at h; cases h
      | some v => rw [hf] at h; cases h; rfl
  have hbt : ∀ (f : FailOracle) (i : Nat) (st : St),
      (beginTransaction (existsBody f i) st).1 = st := by
    intro f i st
    rw [beginTransaction]
    cases h : existsBody f i st with
    | error e => rfl
    | ok s2 => simpa using hex f i st s2 h
  refine ⟨?_, ?_, rfl⟩
  · rw [updateVacancy]
    cases h : beginTransaction (existsBody fail id) s with
    | mk s' b =>
      have hs : s' = s := by
        have h2 := hbt fail id s
        rw [h] at h2
        exact h2
      cases b
      · simpa using hs
      · simpa using hs
  · rw [deleteVacancy]
    cases h : beginTransaction (existsBody fail id) s with
    | mk s' b =>
      have hs : s' = s := by
        have h2 := hbt fail id s
        rw [h] at h2
        exact h2
      cases b
      · simpa using hs
      · simpa using hs

/-- Concrete state for the C8 witness: one vacancy with id 1; id 99 is absent. -/
def stC8 : St :=
  { vacancies := [{ id := 1, companyId := 7, area := "x", contractType := "clt", title := "t" }],
    skills := [], requirements := [], responsabilities := [],
    vacancyDisabilities := [], disabilities := [], nextVacancyId := 2 }

/-- C8: a failing vacancy lookup makes `GetVacancyById` return the error coded
"03", while a failing skills lookup yields the error coded "04"; the two
failure modes carry distinct numeric codes. -/
theorem getVacancyById_distinct_error_tags (fail : FailOracle) (s : St) (id : Nat)
    (hmiss : findVacancyById s id = none)
    (fail2 : FailOracle) (s2 : St) (id2 : Nat)
    (h0 : fail2 0 = false) (hfound : (findVacancyById s2 id2).isSome)
    (h1 : fail2 1 = true) :
    getVacancyById fail s id =
      .error (vacancyServiceError "failed to get the vacancy" "03") ∧
    getVacancyById fail2 s2 id2 =
      .error (vacancyServiceError "failed to get the skills" "04") ∧
    (vacancyServiceError "failed to get the vacancy" "03").code.code ≠
      (vacancyServiceError "failed to get the skills" "04").code.code := by
  refine ⟨?_, ?_, by decide⟩
  · by_cases hf : fail 0 <;> simp [getVacancyById, hf, hmiss]
  · obtain ⟨v, hv⟩ := Option.isSome_iff_exists.mp hfound
    simp [getVacancyById, h0, hv, h1]

theorem getVacancyById_distinct_error_tags_witness :
    getVacancyById noFail stC8 99 =
      .error (vacancyServiceError "failed to get the vacancy" "03") ∧
    getVacancyById (fun i => i == 1) stC8 1 =
      .error (vacancyServiceError "failed to get the skills" "04") ∧
    (vacancyServiceError "failed to get the vacancy" "03").code.code ≠
      (vacancyServiceError "failed to get the skills" "04").code.code :=
  getVacancyById_distinct_error_tags noFail stC8 99 rfl
    (fun i => i == 1) stC8 1 rfl (by decide) rfl

/-- C9 (amended): every failure a vacancy-service operation returns is a
structured error carrying category "database" and entity tag "vacancy", with a
short numeric code identifying a repository call site; within each single
operation distinct call sites yield distinct codes, but codes are reused
across operations (code "03" appears in both `ListVacancies` and
`GetVacancyById`). -/
theorem vacancy_service_error_structure :
    (∀ (fail : FailOracle) (req : VacancyRequest) (s : St) (e : Err),
      (createVacancy fail req s).2 = some e →
      e.code.category = "database" ∧ e.code.entity = "vacancy" ∧ e.code.code = "01") ∧
    (∀ (fail : FailOracle) (s : St) (page perPage companyId : Nat)
      (dc area ct stx : String) (e : Err),
      listVacancies fail s page perPage companyId dc area ct stx = .error e →
      e.code.category = "database" ∧ e.code.entity = "vacancy" ∧
        (e.code.code = "02" ∨ e.code.code = "03")) ∧
    (∀ (fail : FailOracle) (s : St) (id : Nat) (e : Err),
      getVacancyById fail s id = .error e →
      e.code.category = "database" ∧ e.code.entity = "vacancy" ∧
        e.code.code ∈ (["03", "04", "05", "06", "07"] : List String)) ∧
    (∀ (fail : FailOracle) (req : VacancyRequest) (id : Nat) (s : St) (e : Err),
      (updateVacancy fail req id s).2 = some e →
      e.code.category = "database" ∧ e.code.entity = "vacancy" ∧ e.code.code = "08") ∧
    (∀ (fail : FailOracle) (id : Nat) (s : St) (e : Err),
      (deleteVacancy fail id s).2 = some e →
      e.code.category = "database" ∧ e.code.entity = "vacancy" ∧ e.code.code = "09") ∧
    (["01"] : List String).Nodup ∧ (["02", "03"] : List String).Nodup ∧
    (["03", "04", "05", "06", "07"] : List String).Nodup := by
  refine ⟨?_, ?_, ?_, ?_, ?_, by decide, by decide, by decide⟩
  · intro fail req s e h
    cases hc : createBody fail req s with
    | ok s' => simp [createVacancy, beginTransaction, hc] at h
    | error u =>
      have hv : createVacancy fail req s =
          (s, some (vacancyServiceError "failed to create the vacancy" "01")) := by
        simp [createVacancy, beginTransaction, hc]
      rw [hv] at h
      cases h
      exact ⟨rfl, rfl, rfl⟩
  · intro fail s page perPage companyId dc area ct stx e h
    rw [listVacancies] at h
    by_cases h0 : fail 0
    · rw [if_pos h0] at h
      cases h
      exact ⟨rfl, rfl, Or.inl rfl⟩
    · rw [if_neg h0] at h
      have he := listLoop_error_shape fail s dc 1 _ e h
      subst he
      exact ⟨rfl, rfl, Or.inr rfl⟩
  · intro fail s id e h
    rw [getVacancyById] at h
    split at h
    · cases h; exact ⟨rfl, rfl, by decide⟩
    · split at h
      · cases h; exact ⟨rfl, rfl, by decide⟩
      · split at h
        · cases h; exact ⟨rfl, rfl, by decide⟩
        · split at h
          · cases h; exact ⟨rfl, rfl, by decide⟩
          · split at h
            · cases h; exact ⟨rfl, rfl, by decide⟩
            · split at h
              · cases h; exact ⟨rfl, rfl, by decide⟩
              · cases h
  · intro fail req id s e h
    cases hc : existsBody fail id s with
    | ok s2 => simp [updateVacancy, beginTransaction, hc] at h
    | error u =>
      have hv : updateVacancy fail req id s =
          (s, some (vacancyServiceError "failed to update the vacancy" "08")) := by
        simp [updateVacancy, beginTransaction, hc]
      rw [hv] at h
      cases h
      exact ⟨rfl, rfl, rfl⟩
  · intro fail id s e h
    cases hc : existsBody fail id s with
    | ok s2 => simp [deleteVacancy, beginTransaction, hc] at h
    | error u =>
      have hv : deleteVacancy fail id s =
          (s, some (vacancyServiceError "failed to delete the vacancy" "09")) := by
        simp [deleteVacancy, beginTransaction, hc]
      rw [hv] at h
      cases h
      exact ⟨rfl, rfl, rfl⟩

/-- Concrete state for the C9 counterexample and witness: one vacancy with
id 1; id 99 is absent. -/
def stC9 : St :=
  { vacancies := [{ id := 1, companyId := 7, area := "x", contractType := "clt", title := "t" }],
    skills := [], requirements := [], responsabilities := [],
    vacancyDisabilities := [], disabilities := [], nextVacancyId := 2 }

/-- Concrete request for the C9 witness. -/
def reqC9 : VacancyRequest :=
  { companyId := 7, area := "a", contractType := "clt", title := "t",
    skills := [], requirements := [], responsabilities := [], disabilities := [] }

/-- C9 counterexample: two failures at distinct call sites of distinct
operations — the disability fetch inside `ListVacancies` and the vacancy
lookup inside `GetVacancyById` — carry the same numeric code "03" (the
distinct sites are visible in the distinct messages), so distinct call sites
across the service's operations do NOT yield distinct numeric codes. -/
theorem vacancy_service_error_codes_collide :
    listVacancies (fun i => i == 1) stC9 1 10 0 "" "" "" "" =
      .error (vacancyServiceError "failed to get the disabilities" "03") ∧
    getVacancyById noFail stC9 99 =
      .error (vacancyServiceError "failed to get the vacancy" "03") ∧
    (vacancyServiceError "failed to get the disabilities" "03").code.code =
      (vacancyServiceError "failed to get the vacancy" "03").code.code ∧
    (vacancyServiceError "failed to get the disabilities" "03").message ≠
      (vacancyServiceError "failed to get the vacancy" "03").message :=
  ⟨rfl, rfl, rfl, by decide⟩

theorem vacancy_service_error_structure_witness :
    (vacancyServiceError "failed to create the vacancy" "01").code.category = "database" ∧
    (vacancyServiceError "failed to create the vacancy" "01").code.entity = "vacancy" ∧
    (vacancyServiceError "failed to create the vacancy" "01").code.code = "01" :=
  vacancy_service_error_structure.1 (fun _ => true) reqC9 stC9
    (vacancyServiceError "failed to create the vacancy" "01") rfl

/-- Concrete state for C10: vacancy 1 has two join rows referencing distinct
disability ids whose Category strings are both "Visual". -/
def stC10 : St :=
  { vacancies := [{ id := 1, companyId := 7, area := "a", contractType := "clt", title := "t" }],
    skills := [], requirements := [], responsabilities := [],
    vacancyDisabilities :=
      [{ vacancyId := 1, disabilityId := 1 }, { vacancyId := 1, disabilityId := 2 }],
    disabilities := [{ id := 1, category := "Visual" }, { id := 2, category := "Visual" }],
    nextVacancyId := 2 }

/-- C10: `GetVacancyById` performs no deduplication: the returned disabilities
list has exactly one entry per stored join row of the vacancy, in storage
order; concretely, two join rows with distinct disability ids but equal
Category "Visual" make that string appear twice in the response. -/
theorem getVacancyById_no_dedup :
    (∀ (fail : FailOracle) (s : St) (id : Nat) (r : VacancyResponse),
      getVacancyById fail s id = .ok r →
      r.disabilities = (getVacancyDisabilities s id).map (fun vd => vd.category)) ∧
    getVacancyById noFail stC10 1 =
      .ok { id := 1, area := "a", disabilities := ["Visual", "Visual"],
            skills := [], responsabilities := [], requirements := [] } ∧
    (["Visual", "Visual"] : List String).count "Visual" = 2 := by
  refine ⟨?_, rfl, by decide⟩
  intro fail s id r h
  rw [getVacancyById] at h
  split at h
  · cases h
  · split at h
    · cases h
    · split at h
      · cases h
      · split at h
        · cases h
        · split at h
          · cases h
          · split at h
            · cases h
            · cases h
              simp [VacancyRow.toResponse, foldl_append_eq_map]

theorem getVacancyById_no_dedup_witness :
    ({ id := 1, area := "a", disabilities := ["Visual", "Visual"], skills := [],
       responsabilities := [], requirements := [] } : VacancyResponse).disabilities =
      (getVacancyDisabilities stC10 1).map (fun vd => vd.category) :=
  getVacancyById_no_dedup.1 noFail stC10 1
    { id := 1, area := "a", disabilities := ["Visual", "Visual"], skills := [],
      responsabilities := [], requirements := [] } rfl
